import Mathlib

/-!
# Verification of `src/create-embeddings-store.js`

A shallow embedding of the batch embedding-ingestion pipeline in
`src/create-embeddings-store.js`.  Test-case records are dynamic JS
objects (association lists of string keys to JS values); the embedding
API response body is modelled after the response shape the code reads
(`status`, `model`, `data[0].embedding`, `cost`, `usage.total_tokens`);
the outcome of the HTTP transport and of the store write for each record
is an environment parameter.  The per-record control flow — the progress
log outside the `try`, the body-status check, the totals update at lines
97–98 happening *before* `insertOne` at line 114, the per-record `catch`
— is translated statement by statement.
-/

/-- A JavaScript value, as far as the pipeline inspects one. -/
inductive JsVal where
  | str (s : String)
  | num (q : ℚ)
  | bool (b : Bool)
  | arr (elems : List JsVal)
  | obj (fields : List (String × JsVal))
  | date (t : Int)
  | undef
  | null
deriving Repr

/-- A JS object: ordered own fields (keys assumed distinct, as for object literals). -/
abbrev JsObj := List (String × JsVal)

/-- Property read `o.k` on an object: `undefined` when the key is absent. -/
def getField (o : JsObj) (k : String) : JsVal :=
  (o.lookup k).getD JsVal.undef

mutual
/-- JS template-literal conversion `${v}` of a value to a string. -/
def JsVal.toTemplate : JsVal → String
  | .str s => s
  | .num q => toString q
  | .bool b => toString b
  | .arr es => JsVal.listToTemplate es
  | .obj _ => "[object Object]"
  | .date t => toString t
  | .undef => "undefined"
  | .null => "null"

/-- JS `Array.prototype.toString`: elements joined with commas. -/
def JsVal.listToTemplate : List JsVal → String
  | [] => ""
  | [v] => v.toTemplate
  | v :: vs => v.toTemplate ++ "," ++ JsVal.listToTemplate vs
end

/-- The prompt text built at lines 52–59: a template literal interpolating
`testcase.id`, `.module`, `.title`, `.description`, `.steps`,
`.expectedResults` in that order, with the literal's own whitespace. -/
def inputText (testcase : JsObj) : String :=
  "\n          ID: " ++ (getField testcase "id").toTemplate ++
  "\n          Module: " ++ (getField testcase "module").toTemplate ++
  "\n          Title: " ++ (getField testcase "title").toTemplate ++
  "\n          Description: " ++ (getField testcase "description").toTemplate ++
  "\n          Steps: " ++ (getField testcase "steps").toTemplate ++
  "\n          Expected Result: " ++ (getField testcase "expectedResults").toTemplate ++
  "\n        "

/-- The `usage` object of an embedding response; `total_tokens` may be absent. -/
structure Usage where
  total_tokens : Option Int
deriving Repr, DecidableEq

/-- The JSON body of an embedding API response, in the shape the code reads:
`status` (number, checked strictly against 200 at line 81), `model`,
`data` (array of objects each carrying an `embedding` vector), optional
`cost`, optional `usage` with optional `total_tokens`. -/
structure EmbedBody where
  status : ℚ
  message : Option String
  model : String
  data : List (List ℚ)
  cost : Option ℚ
  usage : Option Usage
deriving Repr, DecidableEq

/-- Outcome of the `axios.post` call at line 62.  `axios` resolves only for
2xx transport statuses, so `ok` means a 2xx HTTP response carrying `body`;
`httpErr` is a non-2xx response (`error.response` set); `transportErr` is a
network-level failure with no response (`error.request` set).  The latter
two reject the promise, i.e. throw inside the per-record `try`. -/
inductive EmbedOutcome where
  | transportErr
  | httpErr (status : ℚ)
  | ok (body : EmbedBody)
deriving Repr, DecidableEq

/-- The external world seen by one loop iteration: the embedding call's
outcome, whether `collection.insertOne` succeeds, and the wall clock read
by `new Date()` at line 104. -/
structure RecordEnv where
  embed : EmbedOutcome
  writeOk : Bool
  now : Int
deriving Repr, DecidableEq

/-- Line 87: `const cost = embeddingResponse.data.cost || 0`. -/
def respCost (b : EmbedBody) : ℚ := b.cost.getD 0

/-- Line 88: `const tokens = embeddingResponse.data.usage?.total_tokens || 0`. -/
def respTokens (b : EmbedBody) : Int := (b.usage.bind Usage.total_tokens).getD 0

/-- JS object update `o` then `k: v` in an object literal: an existing key
keeps its position with the new value, a new key is appended. -/
def setKey (o : JsObj) (k : String) (v : JsVal) : JsObj :=
  if (o.lookup k).isSome then
    o.map (fun p => if p.1 = k then (k, v) else p)
  else o ++ [(k, v)]

/-- The `embeddingMetadata` object built at lines 105–110. -/
def embeddingMetadata (b : EmbedBody) : JsVal :=
  .obj [("model", .str b.model), ("cost", .num (respCost b)),
        ("tokens", .num ((respTokens b : ℚ))), ("apiSource", .str "testleaf")]

/-- The document built at lines 101–111: `{ ...testcase, embedding, createdAt,
embeddingMetadata }` — the spread of the record followed by the three
pipeline-set keys, which overwrite any same-named input fields. -/
def buildDoc (testcase : JsObj) (vec : List ℚ) (now : Int) (b : EmbedBody) : JsObj :=
  setKey (setKey (setKey testcase "embedding" (.arr (vec.map JsVal.num)))
      "createdAt" (.date now))
    "embeddingMetadata" (embeddingMetadata b)

/-- Line 48 calls `testcase.description.substring(0, 50)` before the `try`;
it succeeds exactly when `description` is a string (a `TypeError` on any
other value is not caught by the per-record handler). -/
def descriptionIsString (testcase : JsObj) : Bool :=
  match getField testcase "description" with
  | .str _ => true
  | _ => false

/-- What one loop iteration did to the run's state. -/
inductive RecOutcome where
  /-- The progress log at line 48 threw outside the `try`: the error escapes
  the loop and aborts the run. -/
  | fatal
  /-- An error was thrown inside the `try` before the totals update at
  lines 97–98: the record contributes nothing. -/
  | skipped
  /-- `insertOne` at line 114 failed *after* the totals update at lines
  97–98: no document is stored, but cost and tokens were already added. -/
  | skippedAfterTotals (cost : ℚ) (tokens : Int)
  /-- The full iteration succeeded: one document stored, totals updated. -/
  | stored (doc : JsObj) (cost : ℚ) (tokens : Int)
deriving Repr

/-- One iteration of the `for` loop (lines 47–147), translated statement by
statement for record `testcase` under environment `env`. -/
def processRecord (testcase : JsObj) (env : RecordEnv) : RecOutcome :=
  if ¬ descriptionIsString testcase then
    -- line 48: `testcase.description.substring(0, 50)` throws outside the try
    .fatal
  else
    match env.embed with
    | .transportErr => .skipped      -- caught at line 134 (`error.request`)
    | .httpErr _ => .skipped         -- caught at line 129 (`error.response`)
    | .ok body =>
      if body.status ≠ 200 then
        -- line 81: `if (embeddingResponse.data.status !== 200) … throw`
        .skipped
      else
        match body.data.head? with
        | none =>
          -- line 86: `data.data[0].embedding` throws when `data[0]` is undefined
          .skipped
        | some vec =>
          let cost := respCost body
          let tokens := respTokens body
          -- lines 97–98: `totalCost += cost; totalTokens += tokens`
          -- happen here, BEFORE the insert at line 114
          if env.writeOk then
            .stored (buildDoc testcase vec env.now body) cost tokens
          else
            .skippedAfterTotals cost tokens

/-- Cost contribution of an iteration to `totalCost` (line 44/97). -/
def outcomeCost : RecOutcome → ℚ
  | .skippedAfterTotals c _ => c
  | .stored _ c _ => c
  | _ => 0

/-- Token contribution of an iteration to `totalTokens` (line 45/98). -/
def outcomeTokens : RecOutcome → Int
  | .skippedAfterTotals _ t => t
  | .stored _ _ t => t
  | _ => 0

/-- The document an iteration inserted into the collection, if any. -/
def outcomeDoc : RecOutcome → Option JsObj
  | .stored d _ _ => some d
  | _ => none

/-- Whether the iteration's error escaped the loop. -/
def RecOutcome.isFatal : RecOutcome → Bool
  | .fatal => true
  | _ => false

/-- The accumulators declared at lines 44–45. -/
structure RunTotals where
  cost : ℚ
  tokens : Int
deriving Repr, DecidableEq

/-- The run's mutable state: the totals, the documents inserted so far, and
whether an error has escaped the loop (after which the outer `catch` at
line 154 takes over and no further record is processed). -/
structure RunState where
  totals : RunTotals
  store : List JsObj
  aborted : Bool
deriving Repr

/-- Fold one iteration's outcome into the run state.  An aborted run
processes nothing further. -/
def stepState (s : RunState) (o : RecOutcome) : RunState :=
  if s.aborted then s
  else
    { totals := ⟨s.totals.cost + outcomeCost o, s.totals.tokens + outcomeTokens o⟩,
      store := s.store ++ (outcomeDoc o).toList,
      aborted := o.isFatal }

/-- The loop at lines 47–147, run from state `s` over the remaining records. -/
def runFrom (s : RunState) : List (JsObj × RecordEnv) → RunState
  | [] => s
  | p :: rest => runFrom (stepState s (processRecord p.1 p.2)) rest

/-- The whole loop, started from zero totals and an empty collection. -/
def runBatch (batch : List (JsObj × RecordEnv)) : RunState :=
  runFrom ⟨⟨0, 0⟩, [], false⟩ batch

/-- The sequence of per-record outcomes, truncated after a fatal one (a
record after an escape at line 48 is never attempted). -/
def runOutcomes : List (JsObj × RecordEnv) → List RecOutcome
  | [] => []
  | p :: rest =>
    let o := processRecord p.1 p.2
    if o.isFatal then [o] else o :: runOutcomes rest

/-- JS division of finite numbers: `none` models a non-finite result
(`NaN` or `±Infinity`), which is what `x / 0` produces. -/
def jsDiv (a b : ℚ) : Option ℚ := if b = 0 then none else some (a / b)

/-- The final summary printed at lines 149–152, available only if no error
escaped the loop.  `averageCost` is `totalCost / testcases.length`
(line 152) with no guard for an empty batch. -/
structure RunReport where
  totalCost : ℚ
  totalTokens : Int
  averageCost : Option ℚ
  storedDocs : List JsObj
deriving Repr

/-- The observable result of `main` after loading `batch`: `none` when an
error escaped the loop (outer `catch`, no summary), otherwise the summary. -/
def runReport (batch : List (JsObj × RecordEnv)) : Option RunReport :=
  let s := runBatch batch
  if s.aborted then none
  else some ⟨s.totals.cost, s.totals.tokens, jsDiv s.totals.cost (batch.length : ℚ), s.store⟩

/-- Has the embedding stage been passed for this environment: a 2xx transport
response whose body has `status` 200 and a first `data` element (the point
after which lines 97–98 update the totals). -/
def embedAccepted (env : RecordEnv) : Bool :=
  match env.embed with
  | .ok body => body.status == 200 && body.data.head?.isSome
  | _ => false

/-- Fully successful iteration: loggable description, accepted embedding,
successful insert. -/
def recordSucceeds (testcase : JsObj) (env : RecordEnv) : Bool :=
  descriptionIsString testcase && embedAccepted env && env.writeOk

/-- The response's accounting fields are non-negative (after the line 87–88
defaulting), vacuous for failed calls. -/
def envNonneg (env : RecordEnv) : Prop :=
  match env.embed with
  | .ok body => 0 ≤ respCost body ∧ 0 ≤ respTokens body
  | _ => True

/-- The label texts of the prompt template, in source order (lines 53–58). -/
def promptLabels : List String :=
  ["\n          ID: ", "\n          Module: ", "\n          Title: ",
   "\n          Description: ", "\n          Steps: ", "\n          Expected Result: "]

/-- The record fields interpolated into the prompt, in source order. -/
def promptFields : List String :=
  ["id", "module", "title", "description", "steps", "expectedResults"]

/-! ### Concrete fixtures used to evaluate the pipeline on explicit inputs -/

/-- A well-formed test-case record. -/
def tcA : JsObj :=
  [("id", .str "TC-1"), ("module", .str "Login"), ("title", .str "Valid login"),
   ("description", .str "User logs in with valid credentials"),
   ("steps", .str "1. open page 2. submit"), ("expectedResults", .str "Dashboard shown")]

/-- A record whose `description` is a number, so `description.substring` at
line 48 throws a `TypeError` outside the per-record `try`. -/
def tcBad : JsObj := [("id", .str "TC-0"), ("description", .num 5)]

/-- A record that already carries an `embedding` field, to observe the
spread at lines 101–111 overwriting it. -/
def tcClash : JsObj :=
  [("id", .str "TC-9"), ("description", .str "clash"), ("embedding", .str "stale")]

/-- An accepted response body: status 200, one vector, cost 1, 42 tokens. -/
def bodyA : EmbedBody :=
  { status := 200, message := none, model := "text-embedding-3-small",
    data := [[1, 2]], cost := some 1, usage := some ⟨some 42⟩ }

/-- A body rejected by the line 81 check: body status 500 inside a 2xx reply. -/
def bodyRejected : EmbedBody :=
  { status := 500, message := some "quota exceeded", model := "text-embedding-3-small",
    data := [], cost := none, usage := none }

/-- An accepted body whose optional `cost` and `usage` fields are absent. -/
def bodyNoCost : EmbedBody :=
  { status := 200, message := none, model := "text-embedding-3-small",
    data := [[3]], cost := none, usage := none }

/-- Embedding succeeds but `insertOne` fails. -/
def envWriteFail : RecordEnv := { embed := .ok bodyA, writeOk := false, now := 0 }

/-- Everything succeeds. -/
def envOkWrite : RecordEnv := { embed := .ok bodyA, writeOk := true, now := 0 }

/-- 2xx transport, body carries a non-200 `status`. -/
def envRejected : RecordEnv := { embed := .ok bodyRejected, writeOk := true, now := 0 }

/-- Accepted body with absent accounting fields, successful write. -/
def envNoCost : RecordEnv := { embed := .ok bodyNoCost, writeOk := true, now := 7 }

/-! ### Lemmas about object updates -/

theorem lookup_map_replace (o : JsObj) (k : String) (v : JsVal) :
    (o.map (fun p => if p.1 = k then (k, v) else p)).lookup k =
      (o.lookup k).map (fun _ => v) := by
  induction o with
  | nil => rfl
  | cons p rest ih =>
    simp only [List.map]
    by_cases h : p.1 = k
    · subst h
      rw [if_pos rfl]
      simp [List.lookup, ih]
    · have hk : (k == p.1) = false := beq_eq_false_iff_ne.mpr (Ne.symm h)
      rw [if_neg h]
      simp [List.lookup, hk, ih]

theorem lookup_map_replace_ne (o : JsObj) (k k' : String) (v : JsVal) (h : k' ≠ k) :
    (o.map (fun p => if p.1 = k then (k, v) else p)).lookup k' = o.lookup k' := by
  induction o with
  | nil => rfl
  | cons p rest ih =>
    simp only [List.map]
    by_cases hp : p.1 = k
    · subst hp
      rw [if_pos rfl]
      have hk : (k' == p.1) = false := beq_eq_false_iff_ne.mpr h
      simp [List.lookup, hk, ih]
    · rw [if_neg hp]
      cases hk : (k' == p.1) with
      | true => simp [List.lookup, hk]
      | false => simp [List.lookup, hk, ih]

theorem lookup_append_js (o l2 : JsObj) (k : String) :
    (o ++ l2).lookup k = (o.lookup k).or (l2.lookup k) := by
  induction o with
  | nil => simp [List.lookup]
  | cons p rest ih =>
    cases hk : (k == p.1) with
    | true => simp [List.lookup, hk]
    | false => simp [List.lookup, hk, ih]

theorem getField_setKey_self (o : JsObj) (k : String) (v : JsVal) :
    getField (setKey o k v) k = v := by
  unfold setKey getField
  by_cases h : (o.lookup k).isSome
  · rw [if_pos h, lookup_map_replace]
    cases ho : o.lookup k with
    | none => rw [ho] at h; simp at h
    | some w => simp
  · rw [if_neg h, lookup_append_js]
    rw [Option.not_isSome_iff_eq_none] at h
    simp [h, List.lookup]

theorem getField_setKey_ne (o : JsObj) (k k' : String) (v : JsVal) (h : k' ≠ k) :
    getField (setKey o k v) k' = getField o k' := by
  unfold setKey getField
  by_cases hs : (o.lookup k).isSome
  · rw [if_pos hs, lookup_map_replace_ne _ _ _ _ h]
  · rw [if_neg hs, lookup_append_js]
    have hk : (k' == k) = false := beq_eq_false_iff_ne.mpr h
    simp [List.lookup, hk]

/-! ### Lemmas about the loop -/

theorem stepState_of_aborted (s : RunState) (o : RecOutcome) (h : s.aborted = true) :
    stepState s o = s := by
  simp [stepState, h]

theorem runFrom_of_aborted (l : List (JsObj × RecordEnv)) (s : RunState)
    (h : s.aborted = true) : runFrom s l = s := by
  induction l with
  | nil => rfl
  | cons p rest ih => simp [runFrom, stepState_of_aborted _ _ h, ih]

theorem runFrom_append_eq (a b : List (JsObj × RecordEnv)) (s : RunState) :
    runFrom s (a ++ b) = runFrom (runFrom s a) b := by
  induction a generalizing s with
  | nil => rfl
  | cons p rest ih => simp [runFrom, ih]

theorem processRecord_isFatal (tc : JsObj) (env : RecordEnv) :
    (processRecord tc env).isFatal = (!descriptionIsString tc) := by
  cases hd : descriptionIsString tc with
  | false => simp [processRecord, hd, RecOutcome.isFatal]
  | true =>
    unfold processRecord
    rw [hd, if_neg (by simp)]
    cases env.embed with
    | transportErr => rfl
    | httpErr st => rfl
    | ok body =>
      dsimp only
      by_cases hs : body.status = 200
      · rw [if_neg (by simp [hs])]
        cases hv : body.data.head? with
        | none => rfl
        | some vec => cases hw : env.writeOk <;> simp [hw, RecOutcome.isFatal]
      · rw [if_pos hs]
        rfl

theorem outcome_nonneg (tc : JsObj) (env : RecordEnv) (h : envNonneg env) :
    0 ≤ outcomeCost (processRecord tc env) ∧ 0 ≤ outcomeTokens (processRecord tc env) := by
  unfold processRecord
  by_cases hd : descriptionIsString tc = true
  · rw [if_neg (by simp [hd])]
    unfold envNonneg at h
    cases henv : env.embed with
    | transportErr => simp [outcomeCost, outcomeTokens]
    | httpErr st => simp [outcomeCost, outcomeTokens]
    | ok body =>
      dsimp only
      simp only [henv] at h
      by_cases hs : body.status = 200
      · rw [if_neg (by simp [hs])]
        cases hv : body.data.head? with
        | none => simp [outcomeCost, outcomeTokens]
        | some vec =>
          cases hw : env.writeOk <;> simp [outcomeCost, outcomeTokens, h.1, h.2]
      · rw [if_pos hs]
        simp [outcomeCost, outcomeTokens]
  · rw [if_pos hd]
    simp [outcomeCost, outcomeTokens]

theorem runFrom_no_fatal (l : List (JsObj × RecordEnv)) (s : RunState)
    (hs : s.aborted = false)
    (h : ∀ p ∈ l, (processRecord p.1 p.2).isFatal = false) :
    (runFrom s l).aborted = false ∧
    (runFrom s l).store = s.store ++ l.filterMap (fun p => outcomeDoc (processRecord p.1 p.2)) ∧
    (runFrom s l).totals.cost =
      s.totals.cost + (l.map (fun p => outcomeCost (processRecord p.1 p.2))).sum ∧
    (runFrom s l).totals.tokens =
      s.totals.tokens + (l.map (fun p => outcomeTokens (processRecord p.1 p.2))).sum := by
  induction l generalizing s with
  | nil => simp [runFrom, hs]
  | cons p rest ih =>
    have hp := h p (List.mem_cons_self p rest)
    have hr : ∀ q ∈ rest, (processRecord q.1 q.2).isFatal = false :=
      fun q hq => h q (List.mem_cons_of_mem p hq)
    have hstep : stepState s (processRecord p.1 p.2) =
        ⟨⟨s.totals.cost + outcomeCost (processRecord p.1 p.2),
          s.totals.tokens + outcomeTokens (processRecord p.1 p.2)⟩,
         s.store ++ (outcomeDoc (processRecord p.1 p.2)).toList, false⟩ := by
      simp [stepState, hs, hp]
    obtain ⟨h1, h2, h3, h4⟩ := ih (stepState s (processRecord p.1 p.2)) (by rw [hstep])
      hr
    refine ⟨?_, ?_, ?_, ?_⟩
    · simpa [runFrom] using h1
    · simp only [runFrom] at h2 ⊢
      rw [h2, hstep]
      cases hd : outcomeDoc (processRecord p.1 p.2) <;>
        simp [hd, List.filterMap_cons, List.append_assoc]
    · simp only [runFrom] at h3 ⊢
      rw [h3, hstep]
      simp [add_assoc]
    · simp only [runFrom] at h4 ⊢
      rw [h4, hstep]
      simp [add_assoc]

theorem runFrom_totals_mono (l : List (JsObj × RecordEnv)) (s : RunState)
    (h : ∀ p ∈ l, envNonneg p.2) :
    s.totals.cost ≤ (runFrom s l).totals.cost ∧
    s.totals.tokens ≤ (runFrom s l).totals.tokens := by
  induction l generalizing s with
  | nil => exact ⟨le_refl _, le_refl _⟩
  | cons p rest ih =>
    have hp := outcome_nonneg p.1 p.2 (h p (List.mem_cons_self p rest))
    obtain ⟨ih1, ih2⟩ := ih (stepState s (processRecord p.1 p.2))
      (fun q hq => h q (List.mem_cons_of_mem p hq))
    have hc : s.totals.cost ≤ (stepState s (processRecord p.1 p.2)).totals.cost := by
      unfold stepState
      by_cases ha : s.aborted = true <;> simp [ha] <;> linarith [hp.1]
    have ht : s.totals.tokens ≤ (stepState s (processRecord p.1 p.2)).totals.tokens := by
      unfold stepState
      by_cases ha : s.aborted = true <;> simp [ha] <;> linarith [hp.2]
    exact ⟨le_trans hc (by simpa [runFrom] using ih1),
           le_trans ht (by simpa [runFrom] using ih2)⟩

theorem runOutcomes_cons_not_fatal (p : JsObj × RecordEnv) (rest : List (JsObj × RecordEnv))
    (h : (processRecord p.1 p.2).isFatal = false) :
    runOutcomes (p :: rest) = processRecord p.1 p.2 :: runOutcomes rest := by
  simp [runOutcomes, h]

/-! ### Claim theorems -/

/-- Claim C1, counterexample: the claim says a record whose embedding
succeeds but whose store write fails leaves the run totals unchanged
(totals added only after a successful write).  On one record whose
embedding is accepted with cost 1 and 42 tokens but whose `insertOne`
fails, the code stores nothing yet the totals are 1 and 42, not 0:
lines 97–98 run before line 114. -/
theorem c1_counterexample :
    (runBatch [(tcA, envWriteFail)]).store = [] ∧
    (runBatch [(tcA, envWriteFail)]).totals.cost = 1 ∧
    (runBatch [(tcA, envWriteFail)]).totals.cost ≠ 0 ∧
    (runBatch [(tcA, envWriteFail)]).totals.tokens = 42 := by
  refine ⟨rfl, ?_, ?_, ?_⟩
  · show (0 : ℚ) + 1 = 1
    norm_num
  · show (0 : ℚ) + 1 ≠ 0
    norm_num
  · show (0 : ℤ) + 42 = 42
    norm_num

/-- Claim C1, amended: cost and tokens are added to the run totals as soon
as the embedding response is accepted (lines 97–98), before the store
write; a record whose write fails stores no document but still contributes
its cost and tokens to the totals. -/
theorem c1_amended (tc : JsObj) (env : RecordEnv) (body : EmbedBody) (vec : List ℚ)
    (hd : descriptionIsString tc = true) (he : env.embed = .ok body)
    (hs : body.status = 200) (hv : body.data.head? = some vec)
    (hw : env.writeOk = false) :
    processRecord tc env = .skippedAfterTotals (respCost body) (respTokens body) ∧
    (runBatch [(tc, env)]).store = [] ∧
    (runBatch [(tc, env)]).totals = ⟨respCost body, respTokens body⟩ := by
  have h1 : processRecord tc env = .skippedAfterTotals (respCost body) (respTokens body) := by
    unfold processRecord
    rw [if_neg (by simp [hd]), he]
    dsimp only
    rw [if_neg (by simp [hs])]
    rw [hv]
    dsimp only
    rw [if_neg (by simp [hw])]
  refine ⟨h1, ?_, ?_⟩
  · simp [runBatch, runFrom, stepState, h1, outcomeDoc]
  · simp [runBatch, runFrom, stepState, h1, outcomeCost, outcomeTokens]

/-- Claim C1, witness for the amended theorem at a concrete record. -/
theorem c1_amended_witness :
    processRecord tcA envWriteFail =
      .skippedAfterTotals (respCost bodyA) (respTokens bodyA) ∧
    (runBatch [(tcA, envWriteFail)]).store = [] ∧
    (runBatch [(tcA, envWriteFail)]).totals = ⟨respCost bodyA, respTokens bodyA⟩ :=
  c1_amended tcA envWriteFail bodyA [1, 2] rfl rfl rfl rfl rfl

/-- Claim C2, counterexample: the claim says the empty batch reports an
average cost of zero, with the division guarded.  The code computes
`totalCost / testcases.length` (line 152) with no guard: on the empty
batch this is the non-finite JS value `0 / 0` (`NaN`), not zero. -/
theorem c2_counterexample :
    runReport [] = some ⟨0, 0, none, []⟩ ∧
    (runReport []).bind RunReport.averageCost ≠ some 0 := by
  constructor
  · rfl
  · rw [show runReport [] = some ⟨0, 0, none, []⟩ from rfl]
    simp

/-- Claim C2, amended: on the empty batch the run completes without a
thrown error and the totals are zero cost and zero tokens, but the
reported average is the unguarded `0 / 0`, a non-finite value (`NaN`),
not zero. -/
theorem c2_amended :
    runBatch [] = ⟨⟨0, 0⟩, [], false⟩ ∧
    runReport [] = some ⟨0, 0, jsDiv 0 0, []⟩ ∧
    jsDiv 0 0 = none :=
  ⟨rfl, rfl, rfl⟩

/-- Claim C3, counterexample: the claim says every loaded record is
attempted exactly once and no per-record error escapes the loop,
regardless of the record's shape.  The progress log at line 48 calls
`testcase.description.substring(0, 50)` *outside* the `try`: on a record
whose `description` is the number 5 this throws a `TypeError` that
escapes the loop, so the following well-formed record is never attempted
and its document is never stored. -/
theorem c3_counterexample :
    runOutcomes [(tcBad, envOkWrite), (tcA, envOkWrite)] = [.fatal] ∧
    (runBatch [(tcBad, envOkWrite), (tcA, envOkWrite)]).aborted = true ∧
    (runBatch [(tcBad, envOkWrite), (tcA, envOkWrite)]).store = [] :=
  ⟨rfl, rfl, rfl⟩

/-- Claim C3, amended: for records whose `description` field is a string
(so the pre-`try` progress log succeeds), every error raised while
processing a record — transport failure, HTTP failure, body-status
rejection, malformed response data, write failure — is caught at the
per-record boundary: every record of the batch is attempted exactly once,
no outcome is fatal, and the run is never aborted. -/
theorem c3_amended (batch : List (JsObj × RecordEnv))
    (h : ∀ p ∈ batch, descriptionIsString p.1 = true) :
    (runOutcomes batch).length = batch.length ∧
    (∀ o ∈ runOutcomes batch, o.isFatal = false) ∧
    (runBatch batch).aborted = false := by
  have hnf : ∀ p ∈ batch, (processRecord p.1 p.2).isFatal = false := by
    intro p hp
    rw [processRecord_isFatal, h p hp]
    rfl
  refine ⟨?_, ?_, (runFrom_no_fatal batch _ rfl hnf).1⟩
  · induction batch with
    | nil => rfl
    | cons p rest ih =>
      rw [runOutcomes_cons_not_fatal p rest (hnf p (List.mem_cons_self p rest))]
      simp [ih (fun q hq => h q (List.mem_cons_of_mem p hq))
        (fun q hq => hnf q (List.mem_cons_of_mem p hq))]
  · induction batch with
    | nil => intro o ho; simp [runOutcomes] at ho
    | cons p rest ih =>
      rw [runOutcomes_cons_not_fatal p rest (hnf p (List.mem_cons_self p rest))]
      intro o ho
      rcases List.mem_cons.mp ho with rfl | hmem
      · exact hnf p (List.mem_cons_self p rest)
      · exact ih (fun q hq => h q (List.mem_cons_of_mem p hq))
          (fun q hq => hnf q (List.mem_cons_of_mem p hq)) o hmem

/-- Claim C3, witness for the amended theorem on a concrete two-record
batch mixing a write failure and a success. -/
theorem c3_amended_witness :
    (runOutcomes [(tcA, envWriteFail), (tcClash, envOkWrite)]).length =
      [(tcA, envWriteFail), (tcClash, envOkWrite)].length ∧
    (∀ o ∈ runOutcomes [(tcA, envWriteFail), (tcClash, envOkWrite)], o.isFatal = false) ∧
    (runBatch [(tcA, envWriteFail), (tcClash, envOkWrite)]).aborted = false :=
  c3_amended [(tcA, envWriteFail), (tcClash, envOkWrite)] (by
    intro p hp
    rcases List.mem_cons.mp hp with rfl | hp
    · rfl
    · rcases List.mem_cons.mp hp with rfl | hp
      · rfl
      · simp at hp)

theorem outcomeDoc_isSome_eq (tc : JsObj) (env : RecordEnv)
    (hd : descriptionIsString tc = true) (hw : env.writeOk = true) :
    (outcomeDoc (processRecord tc env)).isSome = embedAccepted env := by
  unfold processRecord embedAccepted
  rw [if_neg (by simp [hd])]
  cases env.embed with
  | transportErr => simp [outcomeDoc]
  | httpErr st => simp [outcomeDoc]
  | ok body =>
    dsimp only
    by_cases hs : body.status = 200
    · rw [if_neg (by simp [hs])]
      cases hv : body.data.head? with
      | none => simp [outcomeDoc, hs, hv]
      | some vec => simp [outcomeDoc, hs, hv, hw]
    · rw [if_pos hs]
      have hb : (body.status == 200) = false := by
        simp [hs]
      simp [outcomeDoc, hb]

theorem filterMap_length_of_isSome {α β : Type} (f : α → Option β) (l : List α)
    (h : ∀ a ∈ l, (f a).isSome = true) : (l.filterMap f).length = l.length := by
  induction l with
  | nil => rfl
  | cons a rest ih =>
    have ha := h a (List.mem_cons_self a rest)
    cases hf : f a with
    | none => rw [hf] at ha; simp at ha
    | some b =>
      simp [List.filterMap_cons, hf, ih (fun x hx => h x (List.mem_cons_of_mem a hx))]

/-- Claim C4: for a batch in which every record has a loggable description,
an accepted embedding response and a successful write, the run stores
exactly one document per record in order (the stored list is the
per-record documents, and its length is the batch size), never aborts,
and reports an average whose denominator is the loaded record count. -/
theorem c4_all_success (batch : List (JsObj × RecordEnv))
    (h : ∀ p ∈ batch, recordSucceeds p.1 p.2 = true) :
    (runBatch batch).store =
      batch.filterMap (fun p => outcomeDoc (processRecord p.1 p.2)) ∧
    (runBatch batch).store.length = batch.length ∧
    (runBatch batch).aborted = false ∧
    runReport batch = some ⟨(runBatch batch).totals.cost, (runBatch batch).totals.tokens,
      jsDiv (runBatch batch).totals.cost (batch.length : ℚ), (runBatch batch).store⟩ := by
  have hparts : ∀ p ∈ batch,
      descriptionIsString p.1 = true ∧ embedAccepted p.2 = true ∧ p.2.writeOk = true := by
    intro p hp
    have hx := h p hp
    unfold recordSucceeds at hx
    simp only [Bool.and_eq_true] at hx
    exact ⟨hx.1.1, hx.1.2, hx.2⟩
  have hnf : ∀ p ∈ batch, (processRecord p.1 p.2).isFatal = false := by
    intro p hp
    rw [processRecord_isFatal, (hparts p hp).1]
    rfl
  obtain ⟨h1, h2, _h3, _h4⟩ := runFrom_no_fatal batch ⟨⟨0, 0⟩, [], false⟩ rfl hnf
  have habort : (runBatch batch).aborted = false := h1
  have hstore : (runBatch batch).store =
      batch.filterMap (fun p => outcomeDoc (processRecord p.1 p.2)) := by
    simpa [runBatch] using h2
  refine ⟨hstore, ?_, habort, ?_⟩
  · rw [hstore]
    apply filterMap_length_of_isSome
    intro p hp
    rw [outcomeDoc_isSome_eq p.1 p.2 (hparts p hp).1 (hparts p hp).2.2]
    exact (hparts p hp).2.1
  · simp [runReport, habort]

/-- Claim C4, witness on a concrete two-record all-success batch. -/
theorem c4_witness :
    (runBatch [(tcA, envOkWrite), (tcClash, envOkWrite)]).store =
      [(tcA, envOkWrite), (tcClash, envOkWrite)].filterMap
        (fun p => outcomeDoc (processRecord p.1 p.2)) ∧
    (runBatch [(tcA, envOkWrite), (tcClash, envOkWrite)]).store.length =
      [(tcA, envOkWrite), (tcClash, envOkWrite)].length ∧
    (runBatch [(tcA, envOkWrite), (tcClash, envOkWrite)]).aborted = false ∧
    runReport [(tcA, envOkWrite), (tcClash, envOkWrite)] =
      some ⟨(runBatch [(tcA, envOkWrite), (tcClash, envOkWrite)]).totals.cost,
        (runBatch [(tcA, envOkWrite), (tcClash, envOkWrite)]).totals.tokens,
        jsDiv (runBatch [(tcA, envOkWrite), (tcClash, envOkWrite)]).totals.cost
          ([(tcA, envOkWrite), (tcClash, envOkWrite)].length : ℚ),
        (runBatch [(tcA, envOkWrite), (tcClash, envOkWrite)]).store⟩ :=
  c4_all_success [(tcA, envOkWrite), (tcClash, envOkWrite)] (by
    intro p hp
    rcases List.mem_cons.mp hp with rfl | hp
    · rfl
    · rcases List.mem_cons.mp hp with rfl | hp
      · rfl
      · simp at hp)

/-- Claim C5: failure isolation.  First part: replacing the environment of
record `i` (any non-fatal outcome, e.g. an embedding or write failure,
instead of a success) leaves the attempted outcomes of records `i+1..N` —
and hence their stored documents and totals contributions — unchanged,
and the number of attempted records unchanged.  Second part: in a batch
of loggable records whose writes all succeed, the number of stored
documents equals the number of records whose embedding response was
accepted. -/
theorem c5_failure_isolation :
    (∀ (pre : List (JsObj × RecordEnv)) (tc : JsObj) (env env' : RecordEnv)
        (post : List (JsObj × RecordEnv)),
        (processRecord tc env).isFatal = false →
        (processRecord tc env').isFatal = false →
        (runOutcomes (pre ++ (tc, env) :: post)).drop (pre.length + 1) =
          (runOutcomes (pre ++ (tc, env') :: post)).drop (pre.length + 1) ∧
        (runOutcomes (pre ++ (tc, env) :: post)).length =
          (runOutcomes (pre ++ (tc, env') :: post)).length) ∧
    (∀ batch : List (JsObj × RecordEnv),
        (∀ p ∈ batch, descriptionIsString p.1 = true ∧ p.2.writeOk = true) →
        (runBatch batch).store.length =
          (batch.filter (fun p => embedAccepted p.2)).length) := by
  constructor
  · intro pre
    induction pre with
    | nil =>
      intro tc env env' post h h'
      rw [List.nil_append, List.nil_append,
        runOutcomes_cons_not_fatal _ _ h, runOutcomes_cons_not_fatal _ _ h']
      simp
    | cons q pre' ih =>
      intro tc env env' post h h'
      by_cases hq : (processRecord q.1 q.2).isFatal = true
      · simp [runOutcomes, hq]
      · have hq' : (processRecord q.1 q.2).isFatal = false := by
          revert hq; cases (processRecord q.1 q.2).isFatal <;> simp
        rw [List.cons_append, List.cons_append,
          runOutcomes_cons_not_fatal _ _ hq', runOutcomes_cons_not_fatal _ _ hq']
        obtain ⟨ihd, ihl⟩ := ih tc env env' post h h'
        constructor
        · simpa [List.length_cons, List.drop_succ_cons] using ihd
        · simpa [List.length_cons] using ihl
  · intro batch
    induction batch with
    | nil => intro _; rfl
    | cons p rest ih =>
      intro hb
      have hp := hb p (List.mem_cons_self p rest)
      have hrest : ∀ q ∈ rest, descriptionIsString q.1 = true ∧ q.2.writeOk = true :=
        fun q hq => hb q (List.mem_cons_of_mem p hq)
      have hnf : ∀ q ∈ p :: rest, (processRecord q.1 q.2).isFatal = false := by
        intro q hq
        rw [processRecord_isFatal, (hb q hq).1]
        rfl
      have hnfr : ∀ q ∈ rest, (processRecord q.1 q.2).isFatal = false :=
        fun q hq => hnf q (List.mem_cons_of_mem p hq)
      have hstore := (runFrom_no_fatal (p :: rest) ⟨⟨0, 0⟩, [], false⟩ rfl hnf).2.1
      have hstorer := (runFrom_no_fatal rest ⟨⟨0, 0⟩, [], false⟩ rfl hnfr).2.1
      have hrest_eq : (runBatch rest).store.length =
          (rest.filter (fun q => embedAccepted q.2)).length := ih hrest
      have hsome := outcomeDoc_isSome_eq p.1 p.2 hp.1 hp.2
      show (runBatch (p :: rest)).store.length = _
      rw [show (runBatch (p :: rest)).store =
          (p :: rest).filterMap (fun q => outcomeDoc (processRecord q.1 q.2)) by
        simpa [runBatch] using hstore]
      rw [show (runBatch rest).store =
          rest.filterMap (fun q => outcomeDoc (processRecord q.1 q.2)) by
        simpa [runBatch] using hstorer] at hrest_eq
      cases ha : embedAccepted p.2 with
      | true =>
        rw [ha] at hsome
        cases hdoc : outcomeDoc (processRecord p.1 p.2) with
        | none => rw [hdoc] at hsome; simp at hsome
        | some d =>
          simp [List.filterMap_cons, hdoc, List.filter_cons, ha, hrest_eq]
      | false =>
        rw [ha] at hsome
        cases hdoc : outcomeDoc (processRecord p.1 p.2) with
        | some d => rw [hdoc] at hsome; simp at hsome
        | none =>
          simp [List.filterMap_cons, hdoc, List.filter_cons, ha, hrest_eq]

/-- Claim C5, witness: a write failure at record 1 of a two-record batch
leaves record 2's outcome unchanged, and a loggable all-write-success
batch stores one document per accepted embedding. -/
theorem c5_witness :
    ((runOutcomes ([] ++ (tcA, envWriteFail) :: [(tcClash, envOkWrite)])).drop 1 =
       (runOutcomes ([] ++ (tcA, envOkWrite) :: [(tcClash, envOkWrite)])).drop 1 ∧
     (runOutcomes ([] ++ (tcA, envWriteFail) :: [(tcClash, envOkWrite)])).length =
       (runOutcomes ([] ++ (tcA, envOkWrite) :: [(tcClash, envOkWrite)])).length) ∧
    (runBatch [(tcA, envOkWrite), (tcA, envRejected)]).store.length =
      ([(tcA, envOkWrite), (tcA, envRejected)].filter (fun p => embedAccepted p.2)).length :=
  ⟨c5_failure_isolation.1 [] tcA envWriteFail envOkWrite [(tcClash, envOkWrite)] rfl rfl,
   c5_failure_isolation.2 [(tcA, envOkWrite), (tcA, envRejected)] (by
     intro p hp
     rcases List.mem_cons.mp hp with rfl | hp
     · exact ⟨rfl, rfl⟩
     · rcases List.mem_cons.mp hp with rfl | hp
       · exact ⟨rfl, rfl⟩
       · simp at hp)⟩

/-- Claim C6: a 2xx transport response whose body `status` is not 200 is a
logical failure: the record is skipped before the totals update, nothing
is stored for it, the totals are unchanged by it, and the loop continues
with the remaining records. -/
theorem c6_logical_failure (tc : JsObj) (env : RecordEnv) (body : EmbedBody)
    (rest : List (JsObj × RecordEnv))
    (hd : descriptionIsString tc = true) (he : env.embed = .ok body)
    (hs : body.status ≠ 200) :
    processRecord tc env = .skipped ∧
    runOutcomes ((tc, env) :: rest) = .skipped :: runOutcomes rest ∧
    (runBatch ((tc, env) :: rest)).totals = (runBatch rest).totals ∧
    (runBatch ((tc, env) :: rest)).store = (runBatch rest).store ∧
    (runBatch ((tc, env) :: rest)).aborted = (runBatch rest).aborted := by
  have h1 : processRecord tc env = .skipped := by
    unfold processRecord
    rw [if_neg (by simp [hd]), he]
    dsimp only
    rw [if_pos hs]
  have hstep : stepState ⟨⟨0, 0⟩, [], false⟩ (processRecord tc env) = ⟨⟨0, 0⟩, [], false⟩ := by
    rw [h1]
    simp [stepState, outcomeCost, outcomeTokens, outcomeDoc, RecOutcome.isFatal]
  refine ⟨h1, ?_, ?_, ?_, ?_⟩
  · rw [runOutcomes_cons_not_fatal (tc, env) rest (by rw [h1]; rfl), h1]
  · show (runFrom (stepState ⟨⟨0, 0⟩, [], false⟩ (processRecord tc env)) rest).totals = _
    rw [hstep]; rfl
  · show (runFrom (stepState ⟨⟨0, 0⟩, [], false⟩ (processRecord tc env)) rest).store = _
    rw [hstep]; rfl
  · show (runFrom (stepState ⟨⟨0, 0⟩, [], false⟩ (processRecord tc env)) rest).aborted = _
    rw [hstep]; rfl

/-- Claim C6, witness: a body status 500 inside a 2xx response skips the
record and leaves the rest of the run unchanged. -/
theorem c6_witness :
    processRecord tcA envRejected = .skipped ∧
    runOutcomes [(tcA, envRejected), (tcClash, envOkWrite)] =
      .skipped :: runOutcomes [(tcClash, envOkWrite)] ∧
    (runBatch [(tcA, envRejected), (tcClash, envOkWrite)]).totals =
      (runBatch [(tcClash, envOkWrite)]).totals ∧
    (runBatch [(tcA, envRejected), (tcClash, envOkWrite)]).store =
      (runBatch [(tcClash, envOkWrite)]).store ∧
    (runBatch [(tcA, envRejected), (tcClash, envOkWrite)]).aborted =
      (runBatch [(tcClash, envOkWrite)]).aborted :=
  c6_logical_failure tcA envRejected bodyRejected [(tcClash, envOkWrite)] rfl rfl
    (by norm_num [bodyRejected])

/-- Claim C7: the prompt text sent to the embedding API is exactly the
concatenation, in this fixed order, of the labelled `id`, `module`,
`title`, `description`, `steps` and `expectedResults` fields of the
record (lines 52–59). -/
theorem c7_prompt_field_order (tc : JsObj) :
    inputText tc =
      (promptLabels.zip promptFields).foldr
        (fun p acc => p.1 ++ (getField tc p.2).toTemplate ++ acc) "\n        " := by
  simp [inputText, promptLabels, promptFields, String.append_assoc]

theorem outcome_zero_of_not_accepted (tc : JsObj) (env : RecordEnv)
    (ha : embedAccepted env = false) :
    outcomeCost (processRecord tc env) = 0 ∧ outcomeTokens (processRecord tc env) = 0 := by
  unfold processRecord
  unfold embedAccepted at ha
  by_cases hd : descriptionIsString tc = true
  · rw [if_neg (by simp [hd])]
    cases henv : env.embed with
    | transportErr => simp [outcomeCost, outcomeTokens]
    | httpErr st => simp [outcomeCost, outcomeTokens]
    | ok body =>
      rw [henv] at ha
      dsimp only at ha ⊢
      cases hbs : (body.status == 200) with
      | false =>
        have hs : body.status ≠ 200 := by
          intro he
          rw [he] at hbs
          simp at hbs
        rw [if_pos hs]
        simp [outcomeCost, outcomeTokens]
      | true =>
        have hs : body.status = 200 := beq_iff_eq.mp hbs
        rw [hbs] at ha
        simp only [Bool.true_and] at ha
        rw [if_neg (by simp [hs])]
        cases hv : body.data.head? with
        | none => simp [outcomeCost, outcomeTokens]
        | some vec => rw [hv] at ha; simp at ha
  · rw [if_pos hd]
    simp [outcomeCost, outcomeTokens]

/-- Claim C8: when an accepted embedding response lacks the optional
`cost` field or the optional `usage.total_tokens` field (either one, or
both), the pipeline does not fail: the record is still stored, its
`embeddingMetadata` carries the line 87–88 values `cost || 0` and
`usage?.total_tokens || 0`, and whichever field is absent contributes 0
to the stored metadata and to the run totals. -/
theorem c8_missing_cost_defaults (tc : JsObj) (env : RecordEnv) (body : EmbedBody)
    (vec : List ℚ)
    (hd : descriptionIsString tc = true) (he : env.embed = .ok body)
    (hs : body.status = 200) (hv : body.data.head? = some vec) (hw : env.writeOk = true)
    (hmiss : body.cost = none ∨ body.usage.bind Usage.total_tokens = none) :
    processRecord tc env =
      .stored (buildDoc tc vec env.now body) (respCost body) (respTokens body) ∧
    getField (buildDoc tc vec env.now body) "embeddingMetadata" =
      .obj [("model", .str body.model), ("cost", .num (respCost body)),
            ("tokens", .num ((respTokens body : ℚ))), ("apiSource", .str "testleaf")] ∧
    (body.cost = none →
      respCost body = 0 ∧ outcomeCost (processRecord tc env) = 0) ∧
    (body.usage.bind Usage.total_tokens = none →
      respTokens body = 0 ∧ outcomeTokens (processRecord tc env) = 0) := by
  have h1 : processRecord tc env =
      .stored (buildDoc tc vec env.now body) (respCost body) (respTokens body) := by
    unfold processRecord
    rw [if_neg (by simp [hd]), he]
    dsimp only
    rw [if_neg (by simp [hs]), hv]
    dsimp only
    rw [if_pos hw]
  refine ⟨h1, ?_, ?_, ?_⟩
  · rw [buildDoc, getField_setKey_self]
    rfl
  · intro hc
    have hcost : respCost body = 0 := by simp [respCost, hc]
    exact ⟨hcost, by rw [h1]; simpa [outcomeCost] using hcost⟩
  · intro ht
    have htok : respTokens body = 0 := by simp [respTokens, ht]
    exact ⟨htok, by rw [h1]; simpa [outcomeTokens] using htok⟩

/-- Claim C8, witness: a concrete accepted response with `cost` and
`usage` both absent is stored, and both defaulting implications fire
with value 0. -/
theorem c8_witness :
    processRecord tcA envNoCost =
      .stored (buildDoc tcA [3] 7 bodyNoCost) (respCost bodyNoCost) (respTokens bodyNoCost) ∧
    getField (buildDoc tcA [3] 7 bodyNoCost) "embeddingMetadata" =
      .obj [("model", .str bodyNoCost.model), ("cost", .num (respCost bodyNoCost)),
            ("tokens", .num ((respTokens bodyNoCost : ℚ))), ("apiSource", .str "testleaf")] ∧
    (bodyNoCost.cost = none →
      respCost bodyNoCost = 0 ∧ outcomeCost (processRecord tcA envNoCost) = 0) ∧
    (bodyNoCost.usage.bind Usage.total_tokens = none →
      respTokens bodyNoCost = 0 ∧ outcomeTokens (processRecord tcA envNoCost) = 0) :=
  c8_missing_cost_defaults tcA envNoCost bodyNoCost [3] rfl rfl rfl rfl rfl (Or.inl rfl)

/-- Claim C9: the stored document carries every field of the input record
with its original value, except the pipeline-set keys `embedding`,
`createdAt` and `embeddingMetadata`, which hold the pipeline's values and
overwrite any same-named input fields. -/
theorem c9_frame (tc : JsObj) (vec : List ℚ) (now : Int) (body : EmbedBody) (k : String)
    (hk : k ∉ ["embedding", "createdAt", "embeddingMetadata"]) :
    getField (buildDoc tc vec now body) k = getField tc k ∧
    getField (buildDoc tc vec now body) "embedding" = .arr (vec.map JsVal.num) ∧
    getField (buildDoc tc vec now body) "createdAt" = .date now ∧
    getField (buildDoc tc vec now body) "embeddingMetadata" = embeddingMetadata body := by
  have hk1 : k ≠ "embedding" := by intro h; exact hk (by simp [h])
  have hk2 : k ≠ "createdAt" := by intro h; exact hk (by simp [h])
  have hk3 : k ≠ "embeddingMetadata" := by intro h; exact hk (by simp [h])
  refine ⟨?_, ?_, ?_, ?_⟩
  · rw [buildDoc, getField_setKey_ne _ _ _ _ hk3, getField_setKey_ne _ _ _ _ hk2,
      getField_setKey_ne _ _ _ _ hk1]
  · rw [buildDoc, getField_setKey_ne _ _ _ _ (by decide), getField_setKey_ne _ _ _ _ (by decide),
      getField_setKey_self]
  · rw [buildDoc, getField_setKey_ne _ _ _ _ (by decide), getField_setKey_self]
  · rw [buildDoc, getField_setKey_self]

/-- Claim C9, witness on a record that already has an `embedding` field:
`id` survives unchanged and the stale `embedding` is overwritten. -/
theorem c9_witness :
    getField (buildDoc tcClash [1] 3 bodyA) "id" = getField tcClash "id" ∧
    getField (buildDoc tcClash [1] 3 bodyA) "embedding" = .arr ([1].map JsVal.num) ∧
    getField (buildDoc tcClash [1] 3 bodyA) "createdAt" = .date 3 ∧
    getField (buildDoc tcClash [1] 3 bodyA) "embeddingMetadata" = embeddingMetadata bodyA :=
  c9_frame tcClash [1] 3 bodyA "id" (by decide)

/-- Claim C10: the accumulators start at zero; a record whose embedding
response was not accepted contributes nothing; and under non-negative
response cost and token count, the totals are non-negative and
non-decreasing along the prefixes of the batch. -/
theorem c10_totals_monotone (batch : List (JsObj × RecordEnv))
    (h : ∀ p ∈ batch, envNonneg p.2) :
    (runBatch (batch.take 0)).totals = ⟨0, 0⟩ ∧
    (∀ tc env, embedAccepted env = false →
      outcomeCost (processRecord tc env) = 0 ∧ outcomeTokens (processRecord tc env) = 0) ∧
    (∀ n m, n ≤ m →
      (runBatch (batch.take n)).totals.cost ≤ (runBatch (batch.take m)).totals.cost ∧
      (runBatch (batch.take n)).totals.tokens ≤ (runBatch (batch.take m)).totals.tokens) ∧
    (∀ n, 0 ≤ (runBatch (batch.take n)).totals.cost ∧
      0 ≤ (runBatch (batch.take n)).totals.tokens) := by
  have hmono : ∀ n m, n ≤ m →
      (runBatch (batch.take n)).totals.cost ≤ (runBatch (batch.take m)).totals.cost ∧
      (runBatch (batch.take n)).totals.tokens ≤ (runBatch (batch.take m)).totals.tokens := by
    intro n m hnm
    have htt : (batch.take m).take n = batch.take n := by
      rw [List.take_take, Nat.min_eq_left hnm]
    have hsplit : batch.take n ++ (batch.take m).drop n = batch.take m := by
      rw [← htt, List.take_append_drop]
    have hrun : runBatch (batch.take m) =
        runFrom (runBatch (batch.take n)) ((batch.take m).drop n) := by
      conv_lhs => rw [← hsplit]
      simp only [runBatch]
      exact runFrom_append_eq _ _ _
    rw [hrun]
    exact runFrom_totals_mono ((batch.take m).drop n) (runBatch (batch.take n))
      (fun q hq => h q (List.take_subset _ _ (List.drop_subset _ _ hq)))
  refine ⟨rfl, outcome_zero_of_not_accepted, hmono, ?_⟩
  intro n
  have h0 := hmono 0 n (Nat.zero_le n)
  simpa using h0

/-- Claim C10, witness on a concrete one-record batch with non-negative
response cost and token count. -/
theorem c10_witness :
    (runBatch ([(tcA, envOkWrite)].take 0)).totals = ⟨0, 0⟩ ∧
    (∀ tc env, embedAccepted env = false →
      outcomeCost (processRecord tc env) = 0 ∧ outcomeTokens (processRecord tc env) = 0) ∧
    (∀ n m, n ≤ m →
      (runBatch ([(tcA, envOkWrite)].take n)).totals.cost ≤
        (runBatch ([(tcA, envOkWrite)].take m)).totals.cost ∧
      (runBatch ([(tcA, envOkWrite)].take n)).totals.tokens ≤
        (runBatch ([(tcA, envOkWrite)].take m)).totals.tokens) ∧
    (∀ n, 0 ≤ (runBatch ([(tcA, envOkWrite)].take n)).totals.cost ∧
      0 ≤ (runBatch ([(tcA, envOkWrite)].take n)).totals.tokens) :=
  c10_totals_monotone [(tcA, envOkWrite)] (by
    intro p hp
    rcases List.mem_cons.mp hp with rfl | hp
    · show (0 : ℚ) ≤ respCost bodyA ∧ (0 : ℤ) ≤ respTokens bodyA
      constructor
      · norm_num [respCost, bodyA]
      · norm_num [respTokens, bodyA]
    · simp at hp)
